import Mathlib

/-!
Verification of the hand-rolled SMTP submission client in
`src/lib/smtp_mailer.php` against its natural-language specification.

PHP strings are byte strings; we embed them as `List Nat` (each element a
byte value).  PHP arrays (ordered, insertion-preserving, with int or string
keys) are embedded as association lists with explicit PHP insertion
semantics.  All I/O performed by `leenelite_send_smtp` is made explicit
through a `World` record (the data the environment supplies: connect
outcome, TLS handshake outcome, the stream of chunks successive `fgets`
calls return, the clock and the random Message-ID bytes) and an `IOSt`
record that accumulates the observable effects (bytes written, sockets
opened and closed, TLS negotiations attempted, protocol steps passed).
-/

/-- A PHP (byte) string. -/
abbrev Str := List Nat

/-- Bytes of an ASCII string literal. -/
def ascii (s : String) : Str := s.data.map Char.toNat

/-- CRLF. -/
def crlf : Str := [13, 10]

/-- ASCII digit byte, as matched by PCRE `\d`. -/
def isDigitByte (b : Nat) : Bool := 48 ≤ b && b ≤ 57

/-- Whitespace byte, as matched by PCRE `\s` (space, tab, LF, VT, FF, CR). -/
def isSpaceByte (b : Nat) : Bool := b = 32 || b = 9 || b = 10 || b = 11 || b = 12 || b = 13

/-- The loop guard of `leenelite_smtp_read` (smtp_mailer.php line 38):
`preg_match('/^\d{3}\s/', $line)` — first three bytes are digits and the
fourth is whitespace. -/
def matchesFinal (s : Str) : Bool :=
  match s with
  | b0 :: b1 :: b2 :: b3 :: _ =>
      isDigitByte b0 && isDigitByte b1 && isDigitByte b2 && isSpaceByte b3
  | _ => false

/-- Final-line test as worded by the spec (§4.1): three digits followed by
a space character. -/
def specFinalLine (s : Str) : Bool :=
  match s with
  | b0 :: b1 :: b2 :: b3 :: _ =>
      isDigitByte b0 && isDigitByte b1 && isDigitByte b2 && (b3 = 32 : Bool)
  | _ => false

/-- Embeds `leenelite_smtp_read` (smtp_mailer.php lines 31–41).  The input models
the sequence of chunks successive `fgets` calls return; the result is the
accumulated data together with the unconsumed chunks. -/
def leenelite_smtp_read : List Str → Str × List Str
  | [] => ([], [])
  | l :: rest =>
      if matchesFinal l then (l, rest)
      else
        let r := leenelite_smtp_read rest
        (l ++ r.1, r.2)

/-- Reply-code parse in `leenelite_smtp_expect` (line 45):
`preg_match('/^(\d{3})/', $resp)`, else code 0. -/
def replyCode (s : Str) : Nat :=
  match s with
  | b0 :: b1 :: b2 :: _ =>
      if isDigitByte b0 && isDigitByte b1 && isDigitByte b2 then
        (b0 - 48) * 100 + (b1 - 48) * 10 + (b2 - 48)
      else 0
  | _ => 0

/-- Embeds `str_replace("\r\n", "\n", ·)`: leftmost, non-overlapping. -/
def replCrlfToLf : Str → Str
  | 13 :: 10 :: rest => 10 :: replCrlfToLf rest
  | c :: rest => c :: replCrlfToLf rest
  | [] => []

/-- Embeds `str_replace("\r", "\n", ·)`. -/
def replCrToLf : Str → Str
  | 13 :: rest => 10 :: replCrToLf rest
  | c :: rest => c :: replCrToLf rest
  | [] => []

/-- Embeds `str_replace("\n", "\r\n", ·)`. -/
def replLfToCrlf : Str → Str
  | 10 :: rest => 13 :: 10 :: replLfToCrlf rest
  | c :: rest => c :: replLfToCrlf rest
  | [] => []

/-- Embeds `preg_replace('/\r\n\./', "\r\n..", ·)`: every (non-overlapping)
occurrence of CRLF followed by a dot gets a second dot; scanning resumes
after the matched text. -/
def replDotStuff : Str → Str
  | 13 :: 10 :: 46 :: rest => 13 :: 10 :: 46 :: 46 :: replDotStuff rest
  | c :: rest => c :: replDotStuff rest
  | [] => []

/-- The body transformation of `leenelite_send_smtp`
(smtp_mailer.php lines 177–179): normalize line endings to CRLF, then
dot-stuff. -/
def leenelite_body_transform (body : Str) : Str :=
  replDotStuff (replLfToCrlf (replCrToLf (replCrlfToLf body)))

/-- The base64 alphabet. -/
def b64table : Str :=
  ascii "ABCDEFGHIJKLMNOPQRSTUVWXYZabcdefghijklmnopqrstuvwxyz0123456789+/"

/-- Byte of the base64 alphabet at index `n`. -/
def b64chr (n : Nat) : Nat := b64table.getD n 0

/-- Index of byte `c` in the base64 alphabet (0 when absent), used by the
reference decoder. -/
def b64idx (c : Nat) : List Nat → Nat → Nat
  | [], _ => 0
  | t :: ts, i => if t = c then i else b64idx c ts (i + 1)

/-- Sextet value of a base64 alphabet byte. -/
def b64val (c : Nat) : Nat := b64idx c b64table 0

/-- PHP `base64_encode` on a byte string (RFC 4648, `=`-padded). -/
def base64_encode : Str → Str
  | [] => []
  | [a] => [b64chr (a / 4), b64chr (a % 4 * 16), 61, 61]
  | [a, b] => [b64chr (a / 4), b64chr (a % 4 * 16 + b / 16), b64chr (b % 16 * 4), 61]
  | a :: b :: c :: rest =>
      b64chr (a / 4) :: b64chr (a % 4 * 16 + b / 16) ::
        b64chr (b % 16 * 4 + c / 64) :: b64chr (c % 64) :: base64_encode rest

/-- Reference base64 decoder, following the spec's words ("decoding the
base64 yields the original UTF-8 bytes"): standard RFC 4648 decoding of
`=`-padded input. -/
def base64_decode_rfc : Str → Str
  | w :: x :: y :: z :: rest =>
      if z = 61 then
        if y = 61 then [b64val w * 4 + b64val x / 16]
        else [b64val w * 4 + b64val x / 16, b64val x % 16 * 16 + b64val y / 4]
      else
        (b64val w * 4 + b64val x / 16) :: (b64val x % 16 * 16 + b64val y / 4) ::
          (b64val y % 4 * 64 + b64val z) :: base64_decode_rfc rest
  | _ => []

/-- Test of `preg_match('/[^\x20-\x7E]/', $text)` (smtp_mailer.php line 9):
some byte lies outside printable ASCII. -/
def hasNonAscii (s : Str) : Bool := s.any (fun b => decide (b < 32) || decide (126 < b))

/-- Embeds `leenelite_encode_header_utf8` (smtp_mailer.php lines 6–13). -/
def leenelite_encode_header_utf8 (text : Str) : Str :=
  if hasNonAscii text then ascii "=?UTF-8?B?" ++ base64_encode text ++ ascii "?="
  else text

/-- A PHP array key: integer or string. -/
abbrev HKey := Sum Int Str

/-- Byte stripped by PHP `trim` with its default character list
(space, tab, LF, CR, NUL, VT). -/
def isTrimByte (b : Nat) : Bool := b = 32 || b = 9 || b = 10 || b = 13 || b = 0 || b = 11

/-- PHP `trim` with the default character list. -/
def phpTrim (s : Str) : Str :=
  ((s.dropWhile isTrimByte).reverse.dropWhile isTrimByte).reverse

/-- One iteration of the loop in `leenelite_build_headers`
(smtp_mailer.php lines 18–27): the line contributed by one array entry,
if any. -/
def headerLine : HKey × Str → Option Str
  | (Sum.inl _, v) =>
      let line := phpTrim v
      if line = [] then none else some line
  | (Sum.inr k, v) =>
      let key := phpTrim k
      let val := phpTrim v
      if key = [] then none
      else if val = [] then none
      else some (key ++ [58, 32] ++ val)

/-- Embeds `leenelite_build_headers` (smtp_mailer.php lines 15–29). -/
def leenelite_build_headers (headers : List (HKey × Str)) : Str :=
  List.intercalate crlf (headers.filterMap headerLine)

/-- PHP array assignment `$arr[$k] = $v`: update the value in place when
the key exists, else append. -/
def phpInsert (arr : List (HKey × Str)) (k : HKey) (v : Str) : List (HKey × Str) :=
  if arr.any (fun p => p.1 = k) then
    arr.map (fun p => if p.1 = k then (k, v) else p)
  else arr ++ [(k, v)]

/-- The `foreach ($extraHeaders as $k => $v) $headers[$k] = $v;` loop
(smtp_mailer.php lines 167–169). -/
def phpInsertAll (arr : List (HKey × Str)) (extras : List (HKey × Str)) : List (HKey × Str) :=
  extras.foldl (fun a p => phpInsert a p.1 p.2) arr

/-- PHP `strtolower` on bytes: ASCII letters lowered. -/
def phpToLower (s : Str) : Str :=
  s.map (fun b => if 65 ≤ b && b ≤ 90 then b + 32 else b)

/-- Decimal digits of a natural number (fuel-indexed to keep the
recursion structural; the fuel argument is always sufficient). -/
def natDecAux : Nat → Nat → List Nat
  | 0, _ => []
  | fuel + 1, n => if n < 10 then [48 + n] else natDecAux fuel (n / 10) ++ [48 + n % 10]

/-- Decimal digit bytes of `n`. -/
def natDec (n : Nat) : Str := natDecAux (n + 1) n

/-- Embeds `sprintf('%d', i)`. -/
def intDec (i : Int) : Str := if i < 0 then 45 :: natDec i.natAbs else natDec i.toNat

/-- The `$smtpCfg` array: the keys `leenelite_send_smtp` consults, each
possibly absent (PHP `?? default`). -/
structure SmtpCfg where
  host : Option Str
  port : Option Int
  timeout : Option Int
  helo : Option Str
  encryption : Option Str
deriving DecidableEq

/-- Everything the environment supplies to one `leenelite_send_smtp` call:
whether the TCP connect succeeds (and its diagnostic when not), whether
`stream_socket_enable_crypto` returns `true`, the chunks successive
`fgets` calls return, `date('r')` and `bin2hex(random_bytes(16))`. -/
structure World where
  connectOk : Bool
  connectErr : Str
  tlsOk : Bool
  chunks : List Str
  date : Str
  msgIdHex : Str
deriving DecidableEq

/-- The `[ok, error_code, debug]` triple `leenelite_send_smtp` returns. -/
structure SendResult where
  ok : Bool
  errorCode : Str
  debug : Str
deriving DecidableEq

/-- Protocol steps, recorded as ghost instrumentation exactly where the
source passes the corresponding point. -/
inductive ProtoStep where
  | greetingOk
  | ehloOk
  | heloOk
  | startTlsCmd
  | tlsHandshakeOk
  | ehloAfterTls
  | mailFromOk
  | rcptToOk
  | dataOk
  | sendBodyOk
  | quitCmd
deriving DecidableEq

/-- Observable effects of one call: unconsumed input chunks, every
`fwrite` payload in order, sockets opened/closed, TLS negotiations
attempted, protocol steps passed, and the connect arguments. -/
structure IOSt where
  chunks : List Str
  writes : List Str
  opens : Nat
  closes : Nat
  cryptoCalls : Nat
  steps : List ProtoStep
  remote : Option Str
  timeoutArg : Option Int
deriving DecidableEq

/-- Embeds `fwrite($fp, s)`. -/
def ioWrite (s : Str) (st : IOSt) : IOSt := { st with writes := st.writes ++ [s] }

/-- Embeds `fclose($fp)`. -/
def ioClose (st : IOSt) : IOSt := { st with closes := st.closes + 1 }

/-- Record passing a protocol step (ghost). -/
def mark (p : ProtoStep) (st : IOSt) : IOSt := { st with steps := st.steps ++ [p] }

/-- Embeds `leenelite_smtp_expect` (smtp_mailer.php lines 43–48) acting on the
explicit connection state. -/
def leenelite_smtp_expect (okCodes : List Nat) (st : IOSt) : (Bool × Nat × Str) × IOSt :=
  let r := leenelite_smtp_read st.chunks
  let code := replyCode r.1
  ((okCodes.contains code, code, r.1), { st with chunks := r.2 })

/-- Embeds `leenelite_smtp_cmd` (smtp_mailer.php lines 50–53). -/
def leenelite_smtp_cmd (cmd : Str) (okCodes : List Nat) (st : IOSt) :
    (Bool × Nat × Str) × IOSt :=
  leenelite_smtp_expect okCodes (ioWrite (cmd ++ crlf) st)

/-- The per-call data of `leenelite_send_smtp` after configuration
resolution, bundled for the phase functions. -/
structure SendEnv where
  helo : Str
  encryption : Str
  fromEmail : Str
  fromName : Str
  toEmail : Str
  subject : Str
  body : Str
  extraHeaders : List (HKey × Str)
  tlsOk : Bool
  date : Str
  msgIdHex : Str

/-- The `From` header value (smtp_mailer.php lines 154–156). -/
def mkFromHeader (fromName fromEmail : Str) : Str :=
  if fromName ≠ [] then fromName ++ [32, 60] ++ fromEmail ++ [62] else fromEmail

/-- The fixed `$headers` array literal (smtp_mailer.php lines 158–166), in
source order. -/
def leenelite_fixed_headers (fromHeader toEmail subjectEnc msgId date : Str) :
    List (HKey × Str) :=
  [ (Sum.inr (ascii "Date"), date),
    (Sum.inr (ascii "From"), fromHeader),
    (Sum.inr (ascii "To"), toEmail),
    (Sum.inr (ascii "Subject"), subjectEnc),
    (Sum.inr (ascii "Message-ID"), msgId),
    (Sum.inr (ascii "MIME-Version"), ascii "1.0"),
    (Sum.inr (ascii "Content-Type"), ascii "text/plain; charset=UTF-8"),
    (Sum.inr (ascii "Content-Transfer-Encoding"), ascii "8bit") ]

/-- The `Message-ID` value `'<' . hex . '@' . helo . '>'`. -/
def mkMessageId (msgIdHex helo : Str) : Str := 60 :: msgIdHex ++ 64 :: helo ++ [62]

/-- The full `$dataMsg` (smtp_mailer.php lines 154–181): header block,
blank line, transformed body, terminating dot line (the final CRLF is
added at the `fwrite`). -/
def leenelite_data_msg (env : SendEnv) : Str :=
  let fromHeader := mkFromHeader env.fromName env.fromEmail
  let headers := leenelite_fixed_headers fromHeader env.toEmail
    (leenelite_encode_header_utf8 env.subject) (mkMessageId env.msgIdHex env.helo) env.date
  let headerStr := leenelite_build_headers (phpInsertAll headers env.extraHeaders)
  headerStr ++ crlf ++ crlf ++ leenelite_body_transform env.body ++ crlf ++ [46]

/-- QUIT and close (smtp_mailer.php lines 191–195): best effort, result
discarded. -/
def smtp_phase_quit (st : IOSt) : SendResult × IOSt :=
  let r := leenelite_smtp_cmd (ascii "QUIT") [221, 250] (mark .quitCmd st)
  (⟨true, [], []⟩, ioClose r.2)

/-- Message transmission (smtp_mailer.php lines 181–189): write the DATA
payload, expect 250, then QUIT. -/
def smtp_phase_msg (env : SendEnv) (st : IOSt) : SendResult × IOSt :=
  let st1 := ioWrite (leenelite_data_msg env ++ crlf) st
  let e := leenelite_smtp_expect [250] st1
  if e.1.1 = false then
    (⟨false, ascii "smtp_message_rejected", e.1.2.2⟩, ioClose e.2)
  else smtp_phase_quit (mark .sendBodyOk e.2)

/-- Envelope and DATA commands (smtp_mailer.php lines 135–152): MAIL FROM,
RCPT TO, DATA, then the message. -/
def smtp_phase_mail (env : SendEnv) (st : IOSt) : SendResult × IOSt :=
  let m := leenelite_smtp_cmd (ascii "MAIL FROM:<" ++ env.fromEmail ++ [62]) [250] st
  if m.1.1 = false then
    (⟨false, ascii "smtp_mail_from_failed", m.1.2.2⟩, ioClose m.2)
  else
    let r := leenelite_smtp_cmd (ascii "RCPT TO:<" ++ env.toEmail ++ [62]) [250, 251]
      (mark .mailFromOk m.2)
    if r.1.1 = false then
      (⟨false, ascii "smtp_rcpt_to_failed", r.1.2.2⟩, ioClose r.2)
    else
      let d := leenelite_smtp_cmd (ascii "DATA") [354] (mark .rcptToOk r.2)
      if d.1.1 = false then
        (⟨false, ascii "smtp_data_failed", d.1.2.2⟩, ioClose d.2)
      else smtp_phase_msg env (mark .dataOk d.2)

/-- STARTTLS upgrade (smtp_mailer.php lines 113–133): STARTTLS command,
`stream_socket_enable_crypto`, EHLO again, then the envelope. -/
def smtp_phase_tls (env : SendEnv) (st : IOSt) : SendResult × IOSt :=
  let s := leenelite_smtp_cmd (ascii "STARTTLS") [220] (mark .startTlsCmd st)
  if s.1.1 = false then
    (⟨false, ascii "smtp_starttls_failed", s.1.2.2⟩, ioClose s.2)
  else
    let st1 : IOSt := { s.2 with cryptoCalls := s.2.cryptoCalls + 1 }
    if env.tlsOk = false then
      (⟨false, ascii "smtp_tls_negotiation_failed", ascii "TLS negotiation failed"⟩,
        ioClose st1)
    else
      let e := leenelite_smtp_cmd (ascii "EHLO " ++ env.helo) [250]
        (mark .tlsHandshakeOk st1)
      if e.1.1 = false then
        (⟨false, ascii "smtp_ehlo_after_tls_failed", e.1.2.2⟩, ioClose e.2)
      else smtp_phase_mail env (mark .ehloAfterTls e.2)

/-- Greeting and EHLO/HELO (smtp_mailer.php lines 98–133), then either the
STARTTLS branch or directly the envelope, by `$encryption === 'tls'`. -/
def smtp_phase_session (env : SendEnv) (st : IOSt) : SendResult × IOSt :=
  let g := leenelite_smtp_expect [220] st
  if g.1.1 = false then
    (⟨false, ascii "smtp_bad_greeting", g.1.2.2⟩, ioClose g.2)
  else
    let e := leenelite_smtp_cmd (ascii "EHLO " ++ env.helo) [250] (mark .greetingOk g.2)
    let next := fun st2 =>
      if env.encryption = ascii "tls" then smtp_phase_tls env st2
      else smtp_phase_mail env st2
    if e.1.1 = false then
      let h := leenelite_smtp_cmd (ascii "HELO " ++ env.helo) [250] e.2
      if h.1.1 = false then
        (⟨false, ascii "smtp_helo_failed", e.1.2.2 ++ [10] ++ h.1.2.2⟩, ioClose h.2)
      else next (mark .heloOk h.2)
    else next (mark .ehloOk e.2)

/-- Resolved `$encryption` (smtp_mailer.php line 73):
`strtolower((string)($smtpCfg['encryption'] ?? 'tls'))`. -/
def resolveEncryption (cfg : SmtpCfg) : Str :=
  phpToLower (cfg.encryption.getD (ascii "tls"))

/-- Resolved `$host` (line 69): `$smtpCfg['host'] ?? ''`. -/
def resolveHost (cfg : SmtpCfg) : Str := cfg.host.getD []

/-- Resolved `$port` (line 70): `(int)($smtpCfg['port'] ?? 587)`. -/
def resolvePort (cfg : SmtpCfg) : Int := cfg.port.getD 587

/-- Resolved `$timeout` (line 71): `(int)($smtpCfg['timeout'] ?? 20)`. -/
def resolveTimeout (cfg : SmtpCfg) : Int := cfg.timeout.getD 20

/-- Resolved `$helo` (line 72): `$smtpCfg['helo'] ?? 'localhost'`. -/
def resolveHelo (cfg : SmtpCfg) : Str := cfg.helo.getD (ascii "localhost")

/-- The bytes `fwrite` receives for the STARTTLS command. -/
def startTlsWrite : Str := ascii "STARTTLS" ++ crlf

/-- Header array as the claim's words describe it: the fixed set first,
every caller-supplied extra header appended after it in caller order. -/
def claimHeadersArray (fixed extras : List (HKey × Str)) : List (HKey × Str) :=
  fixed ++ extras

/-- The names of the eight fixed headers, in transmission order. -/
def fixedHeaderNames : List Str :=
  [ascii "Date", ascii "From", ascii "To", ascii "Subject", ascii "Message-ID",
    ascii "MIME-Version", ascii "Content-Type", ascii "Content-Transfer-Encoding"]

/-- Embeds `leenelite_send_smtp` (smtp_mailer.php lines 68–196), as a function of
the configuration, the message data and the `World`. -/
def leenelite_send_smtp (cfg : SmtpCfg) (fromEmail fromName toEmail subject body : Str)
    (extraHeaders : List (HKey × Str)) (w : World) : SendResult × IOSt :=
  let host := resolveHost cfg
  let port : Int := resolvePort cfg
  let timeout : Int := resolveTimeout cfg
  let helo := resolveHelo cfg
  let encryption := resolveEncryption cfg
  let st0 : IOSt :=
    { chunks := w.chunks, writes := [], opens := 0, closes := 0,
      cryptoCalls := 0, steps := [], remote := none, timeoutArg := none }
  if host = [] then
    (⟨false, ascii "smtp_no_host", ascii "SMTP host missing"⟩, st0)
  else
    let remote := ascii "tcp://" ++ host ++ [58] ++ intDec port
    let st1 : IOSt := { st0 with remote := some remote, timeoutArg := some timeout }
    if w.connectOk = false then
      (⟨false, ascii "smtp_connect_failed", w.connectErr⟩, st1)
    else
      let env : SendEnv :=
        { helo := helo, encryption := encryption, fromEmail := fromEmail,
          fromName := fromName, toEmail := toEmail, subject := subject,
          body := body, extraHeaders := extraHeaders, tlsOk := w.tlsOk,
          date := w.date, msgIdHex := w.msgIdHex }
      smtp_phase_session env { st1 with opens := 1 }


/-! ### Inequations between written command lines -/

theorem startTls_ne_ehlo (x : Str) : startTlsWrite ≠ ascii "EHLO " ++ (x ++ crlf) := by
  rw [show ascii "EHLO " = 69 :: ascii "HLO " from by decide, List.cons_append,
    show startTlsWrite = 83 :: (ascii "TARTTLS" ++ crlf) from by decide]
  simp

theorem startTls_ne_helo (x : Str) : startTlsWrite ≠ ascii "HELO " ++ (x ++ crlf) := by
  rw [show ascii "HELO " = 72 :: ascii "ELO " from by decide, List.cons_append,
    show startTlsWrite = 83 :: (ascii "TARTTLS" ++ crlf) from by decide]
  simp

theorem startTls_ne_mail (x : Str) : startTlsWrite ≠ ascii "MAIL FROM:<" ++ (x ++ 62 :: crlf) := by
  rw [show ascii "MAIL FROM:<" = 77 :: ascii "AIL FROM:<" from by decide, List.cons_append,
    show startTlsWrite = 83 :: (ascii "TARTTLS" ++ crlf) from by decide]
  simp

theorem startTls_ne_rcpt (x : Str) : startTlsWrite ≠ ascii "RCPT TO:<" ++ (x ++ 62 :: crlf) := by
  rw [show ascii "RCPT TO:<" = 82 :: ascii "CPT TO:<" from by decide, List.cons_append,
    show startTlsWrite = 83 :: (ascii "TARTTLS" ++ crlf) from by decide]
  simp

theorem startTls_ne_data : startTlsWrite ≠ ascii "DATA" ++ crlf := by decide

theorem startTls_ne_quit : startTlsWrite ≠ ascii "QUIT" ++ crlf := by decide

theorem end_dot_write_ne (l : Str) : (l ++ [46]) ++ crlf ≠ startTlsWrite := by
  intro h
  have h2 := congrArg List.reverse h
  rw [show startTlsWrite.reverse = [10, 13, 83, 76, 84, 84, 82, 65, 84, 83] from by decide] at h2
  simp [crlf, List.reverse_append] at h2

theorem dataMsg_write_ne (env : SendEnv) : (leenelite_data_msg env ++ crlf) ≠ startTlsWrite := by
  have := end_dot_write_ne
    (leenelite_build_headers (phpInsertAll
        (leenelite_fixed_headers (mkFromHeader env.fromName env.fromEmail) env.toEmail
          (leenelite_encode_header_utf8 env.subject) (mkMessageId env.msgIdHex env.helo) env.date)
        env.extraHeaders)
      ++ crlf ++ crlf ++ leenelite_body_transform env.body ++ crlf)
  simpa [leenelite_data_msg] using this

/-! ### Effect characterizations of the protocol phases -/

@[simp] theorem quit_snd_closes (st : IOSt) :
    (smtp_phase_quit st).2.closes = st.closes + 1 := by
  simp [smtp_phase_quit, leenelite_smtp_cmd, leenelite_smtp_expect, ioWrite, ioClose, mark]

@[simp] theorem quit_snd_opens (st : IOSt) :
    (smtp_phase_quit st).2.opens = st.opens := by
  simp [smtp_phase_quit, leenelite_smtp_cmd, leenelite_smtp_expect, ioWrite, ioClose, mark]

@[simp] theorem quit_snd_crypto (st : IOSt) :
    (smtp_phase_quit st).2.cryptoCalls = st.cryptoCalls := by
  simp [smtp_phase_quit, leenelite_smtp_cmd, leenelite_smtp_expect, ioWrite, ioClose, mark]

@[simp] theorem quit_snd_steps (st : IOSt) :
    (smtp_phase_quit st).2.steps = st.steps ++ [ProtoStep.quitCmd] := by
  simp [smtp_phase_quit, leenelite_smtp_cmd, leenelite_smtp_expect, ioWrite, ioClose, mark]

@[simp] theorem quit_snd_writes (st : IOSt) :
    (smtp_phase_quit st).2.writes = st.writes ++ [ascii "QUIT" ++ crlf] := by
  simp [smtp_phase_quit, leenelite_smtp_cmd, leenelite_smtp_expect, ioWrite, ioClose, mark]

@[simp] theorem quit_fst (st : IOSt) : (smtp_phase_quit st).1 = ⟨true, [], []⟩ := by
  simp [smtp_phase_quit, leenelite_smtp_cmd, leenelite_smtp_expect, ioWrite, ioClose, mark]

@[simp] theorem msg_snd_closes (env : SendEnv) (st : IOSt) :
    (smtp_phase_msg env st).2.closes = st.closes + 1 := by
  unfold smtp_phase_msg
  dsimp only
  split
  · simp [leenelite_smtp_expect, ioWrite, ioClose]
  · simp [leenelite_smtp_expect, ioWrite, mark]

@[simp] theorem msg_snd_opens (env : SendEnv) (st : IOSt) :
    (smtp_phase_msg env st).2.opens = st.opens := by
  unfold smtp_phase_msg
  dsimp only
  split
  · simp [leenelite_smtp_expect, ioWrite, ioClose]
  · simp [leenelite_smtp_expect, ioWrite, mark]

@[simp] theorem msg_snd_crypto (env : SendEnv) (st : IOSt) :
    (smtp_phase_msg env st).2.cryptoCalls = st.cryptoCalls := by
  unfold smtp_phase_msg
  dsimp only
  split
  · simp [leenelite_smtp_expect, ioWrite, ioClose]
  · simp [leenelite_smtp_expect, ioWrite, mark]

theorem msg_err (env : SendEnv) (st : IOSt) :
    ((smtp_phase_msg env st).1.errorCode = [] ↔ (smtp_phase_msg env st).1.ok = true) := by
  unfold smtp_phase_msg
  dsimp only
  split
  · simp only []
    constructor
    · intro h; exact absurd h (by decide)
    · intro h; exact absurd h (by decide)
  · simp

theorem msg_steps_pres (env : SendEnv) (st : IOSt) (p : ProtoStep)
    (h1 : p ≠ ProtoStep.sendBodyOk) (h2 : p ≠ ProtoStep.quitCmd) :
    (p ∈ (smtp_phase_msg env st).2.steps ↔ p ∈ st.steps) := by
  unfold smtp_phase_msg
  dsimp only
  split
  · simp [leenelite_smtp_expect, ioWrite, ioClose]
  · simp [leenelite_smtp_expect, ioWrite, mark, h1, h2]

theorem msg_writes_pres (env : SendEnv) (st : IOSt) :
    (startTlsWrite ∈ (smtp_phase_msg env st).2.writes ↔ startTlsWrite ∈ st.writes) := by
  unfold smtp_phase_msg
  dsimp only
  split
  · simp [leenelite_smtp_expect, ioWrite, ioClose, Ne.symm (dataMsg_write_ne env)]
  · simp [leenelite_smtp_expect, ioWrite, mark, Ne.symm (dataMsg_write_ne env),
      startTls_ne_quit]

theorem msg_steps_mono (env : SendEnv) (st : IOSt) (p : ProtoStep) (h : p ∈ st.steps) :
    p ∈ (smtp_phase_msg env st).2.steps := by
  unfold smtp_phase_msg
  dsimp only
  split
  · simpa [leenelite_smtp_expect, ioWrite, ioClose] using h
  · simp [leenelite_smtp_expect, ioWrite, mark, h]

theorem msg_writes_mono (env : SendEnv) (st : IOSt) (x : Str) (h : x ∈ st.writes) :
    x ∈ (smtp_phase_msg env st).2.writes := by
  unfold smtp_phase_msg
  dsimp only
  split
  · simp [leenelite_smtp_expect, ioWrite, ioClose, h]
  · simp [leenelite_smtp_expect, ioWrite, mark, h]

theorem msg_sendBody (env : SendEnv) (st : IOSt)
    (h : ProtoStep.sendBodyOk ∈ (smtp_phase_msg env st).2.steps) :
    ProtoStep.sendBodyOk ∈ st.steps ∨ (smtp_phase_msg env st).1 = ⟨true, [], []⟩ := by
  revert h
  unfold smtp_phase_msg
  dsimp only
  split
  · intro h
    exact Or.inl (by simpa [leenelite_smtp_expect, ioWrite, ioClose] using h)
  · intro _
    exact Or.inr (by simp)

@[simp] theorem mail_snd_closes (env : SendEnv) (st : IOSt) :
    (smtp_phase_mail env st).2.closes = st.closes + 1 := by
  unfold smtp_phase_mail
  dsimp only
  split
  · simp [leenelite_smtp_cmd, leenelite_smtp_expect, ioWrite, ioClose]
  · split
    · simp [leenelite_smtp_cmd, leenelite_smtp_expect, ioWrite, ioClose, mark]
    · split
      · simp [leenelite_smtp_cmd, leenelite_smtp_expect, ioWrite, ioClose, mark]
      · simp [leenelite_smtp_cmd, leenelite_smtp_expect, ioWrite, mark]

@[simp] theorem mail_snd_opens (env : SendEnv) (st : IOSt) :
    (smtp_phase_mail env st).2.opens = st.opens := by
  unfold smtp_phase_mail
  dsimp only
  split
  · simp [leenelite_smtp_cmd, leenelite_smtp_expect, ioWrite, ioClose]
  · split
    · simp [leenelite_smtp_cmd, leenelite_smtp_expect, ioWrite, ioClose, mark]
    · split
      · simp [leenelite_smtp_cmd, leenelite_smtp_expect, ioWrite, ioClose, mark]
      · simp [leenelite_smtp_cmd, leenelite_smtp_expect, ioWrite, mark]

@[simp] theorem mail_snd_crypto (env : SendEnv) (st : IOSt) :
    (smtp_phase_mail env st).2.cryptoCalls = st.cryptoCalls := by
  unfold smtp_phase_mail
  dsimp only
  split
  · simp [leenelite_smtp_cmd, leenelite_smtp_expect, ioWrite, ioClose]
  · split
    · simp [leenelite_smtp_cmd, leenelite_smtp_expect, ioWrite, ioClose, mark]
    · split
      · simp [leenelite_smtp_cmd, leenelite_smtp_expect, ioWrite, ioClose, mark]
      · simp [leenelite_smtp_cmd, leenelite_smtp_expect, ioWrite, mark]

theorem mail_err (env : SendEnv) (st : IOSt) :
    ((smtp_phase_mail env st).1.errorCode = [] ↔ (smtp_phase_mail env st).1.ok = true) := by
  unfold smtp_phase_mail
  dsimp only
  split
  · dsimp only
    decide
  · split
    · dsimp only
      decide
    · split
      · dsimp only
        decide
      · exact msg_err env _

theorem mail_steps_pres (env : SendEnv) (st : IOSt) (p : ProtoStep)
    (h1 : p ≠ ProtoStep.sendBodyOk) (h2 : p ≠ ProtoStep.quitCmd)
    (h3 : p ≠ ProtoStep.mailFromOk) (h4 : p ≠ ProtoStep.rcptToOk)
    (h5 : p ≠ ProtoStep.dataOk) :
    (p ∈ (smtp_phase_mail env st).2.steps ↔ p ∈ st.steps) := by
  unfold smtp_phase_mail
  dsimp only
  split
  · simp [leenelite_smtp_cmd, leenelite_smtp_expect, ioWrite, ioClose]
  · split
    · simp [leenelite_smtp_cmd, leenelite_smtp_expect, ioWrite, ioClose, mark, h3]
    · split
      · simp [leenelite_smtp_cmd, leenelite_smtp_expect, ioWrite, ioClose, mark, h3, h4]
      · rw [msg_steps_pres env _ p h1 h2]
        simp [leenelite_smtp_cmd, leenelite_smtp_expect, ioWrite, mark, h3, h4, h5]

theorem mail_writes_pres (env : SendEnv) (st : IOSt) :
    (startTlsWrite ∈ (smtp_phase_mail env st).2.writes ↔ startTlsWrite ∈ st.writes) := by
  unfold smtp_phase_mail
  dsimp only
  split
  · simp [leenelite_smtp_cmd, leenelite_smtp_expect, ioWrite, ioClose,
      startTls_ne_mail env.fromEmail]
  · split
    · simp [leenelite_smtp_cmd, leenelite_smtp_expect, ioWrite, ioClose, mark,
        startTls_ne_mail env.fromEmail, startTls_ne_rcpt env.toEmail]
    · split
      · simp [leenelite_smtp_cmd, leenelite_smtp_expect, ioWrite, ioClose, mark,
          startTls_ne_mail env.fromEmail, startTls_ne_rcpt env.toEmail, startTls_ne_data]
      · rw [msg_writes_pres env _]
        simp [leenelite_smtp_cmd, leenelite_smtp_expect, ioWrite, mark,
          startTls_ne_mail env.fromEmail, startTls_ne_rcpt env.toEmail, startTls_ne_data]

theorem mail_steps_mono (env : SendEnv) (st : IOSt) (p : ProtoStep) (h : p ∈ st.steps) :
    p ∈ (smtp_phase_mail env st).2.steps := by
  unfold smtp_phase_mail
  dsimp only
  split
  · simpa [leenelite_smtp_cmd, leenelite_smtp_expect, ioWrite, ioClose] using h
  · split
    · simp [leenelite_smtp_cmd, leenelite_smtp_expect, ioWrite, ioClose, mark, h]
    · split
      · simp [leenelite_smtp_cmd, leenelite_smtp_expect, ioWrite, ioClose, mark, h]
      · apply msg_steps_mono
        simp [leenelite_smtp_cmd, leenelite_smtp_expect, ioWrite, mark, h]

theorem mail_writes_mono (env : SendEnv) (st : IOSt) (x : Str) (h : x ∈ st.writes) :
    x ∈ (smtp_phase_mail env st).2.writes := by
  unfold smtp_phase_mail
  dsimp only
  split
  · simp [leenelite_smtp_cmd, leenelite_smtp_expect, ioWrite, ioClose, h]
  · split
    · simp [leenelite_smtp_cmd, leenelite_smtp_expect, ioWrite, ioClose, mark, h]
    · split
      · simp [leenelite_smtp_cmd, leenelite_smtp_expect, ioWrite, ioClose, mark, h]
      · apply msg_writes_mono
        simp [leenelite_smtp_cmd, leenelite_smtp_expect, ioWrite, mark, h]

theorem mail_sendBody (env : SendEnv) (st : IOSt)
    (h : ProtoStep.sendBodyOk ∈ (smtp_phase_mail env st).2.steps) :
    ProtoStep.sendBodyOk ∈ st.steps ∨ (smtp_phase_mail env st).1 = ⟨true, [], []⟩ := by
  revert h
  unfold smtp_phase_mail
  dsimp only
  split
  · intro h
    exact Or.inl (by simpa [leenelite_smtp_cmd, leenelite_smtp_expect, ioWrite, ioClose] using h)
  · split
    · intro h
      exact Or.inl (by
        simpa [leenelite_smtp_cmd, leenelite_smtp_expect, ioWrite, ioClose, mark] using h)
    · split
      · intro h
        exact Or.inl (by
          simpa [leenelite_smtp_cmd, leenelite_smtp_expect, ioWrite, ioClose, mark] using h)
      · intro h
        rcases msg_sendBody env _ h with h2 | h2
        · exact Or.inl (by
            simpa [leenelite_smtp_cmd, leenelite_smtp_expect, ioWrite, mark] using h2)
        · exact Or.inr h2

@[simp] theorem tls_snd_closes (env : SendEnv) (st : IOSt) :
    (smtp_phase_tls env st).2.closes = st.closes + 1 := by
  unfold smtp_phase_tls
  dsimp only
  split
  · simp [leenelite_smtp_cmd, leenelite_smtp_expect, ioWrite, ioClose, mark]
  · split
    · simp [leenelite_smtp_cmd, leenelite_smtp_expect, ioWrite, ioClose, mark]
    · split
      · simp [leenelite_smtp_cmd, leenelite_smtp_expect, ioWrite, ioClose, mark]
      · simp [leenelite_smtp_cmd, leenelite_smtp_expect, ioWrite, mark]

@[simp] theorem tls_snd_opens (env : SendEnv) (st : IOSt) :
    (smtp_phase_tls env st).2.opens = st.opens := by
  unfold smtp_phase_tls
  dsimp only
  split
  · simp [leenelite_smtp_cmd, leenelite_smtp_expect, ioWrite, ioClose, mark]
  · split
    · simp [leenelite_smtp_cmd, leenelite_smtp_expect, ioWrite, ioClose, mark]
    · split
      · simp [leenelite_smtp_cmd, leenelite_smtp_expect, ioWrite, ioClose, mark]
      · simp [leenelite_smtp_cmd, leenelite_smtp_expect, ioWrite, mark]

theorem tls_err (env : SendEnv) (st : IOSt) :
    ((smtp_phase_tls env st).1.errorCode = [] ↔ (smtp_phase_tls env st).1.ok = true) := by
  unfold smtp_phase_tls
  dsimp only
  split
  · dsimp only
    decide
  · split
    · dsimp only
      decide
    · split
      · dsimp only
        decide
      · exact mail_err env _

theorem tls_sendBody (env : SendEnv) (st : IOSt)
    (h : ProtoStep.sendBodyOk ∈ (smtp_phase_tls env st).2.steps) :
    ProtoStep.sendBodyOk ∈ st.steps ∨ (smtp_phase_tls env st).1 = ⟨true, [], []⟩ := by
  revert h
  unfold smtp_phase_tls
  dsimp only
  split
  · intro h
    exact Or.inl (by simpa [leenelite_smtp_cmd, leenelite_smtp_expect, ioWrite, ioClose, mark] using h)
  · split
    · intro h
      exact Or.inl (by
        simpa [leenelite_smtp_cmd, leenelite_smtp_expect, ioWrite, ioClose, mark] using h)
    · split
      · intro h
        exact Or.inl (by
          simpa [leenelite_smtp_cmd, leenelite_smtp_expect, ioWrite, ioClose, mark] using h)
      · intro h
        rcases mail_sendBody env _ h with h2 | h2
        · exact Or.inl (by
            simpa [leenelite_smtp_cmd, leenelite_smtp_expect, ioWrite, mark] using h2)
        · exact Or.inr h2

theorem tls_pos (env : SendEnv) (st : IOSt)
    (hok : (smtp_phase_tls env st).1.ok = true) :
    ProtoStep.startTlsCmd ∈ (smtp_phase_tls env st).2.steps ∧
    ProtoStep.tlsHandshakeOk ∈ (smtp_phase_tls env st).2.steps ∧
    ProtoStep.ehloAfterTls ∈ (smtp_phase_tls env st).2.steps ∧
    startTlsWrite ∈ (smtp_phase_tls env st).2.writes := by
  revert hok
  unfold smtp_phase_tls
  dsimp only
  split
  · intro hok
    dsimp only at hok
    exact absurd hok (by decide)
  · split
    · intro hok
      dsimp only at hok
      exact absurd hok (by decide)
    · split
      · intro hok
        dsimp only at hok
        exact absurd hok (by decide)
      · intro _
        refine ⟨mail_steps_mono env _ _ ?_, mail_steps_mono env _ _ ?_,
          mail_steps_mono env _ _ ?_, mail_writes_mono env _ _ ?_⟩
        · simp [leenelite_smtp_cmd, leenelite_smtp_expect, ioWrite, mark]
        · simp [leenelite_smtp_cmd, leenelite_smtp_expect, ioWrite, mark]
        · simp [leenelite_smtp_cmd, leenelite_smtp_expect, ioWrite, mark]
        · simp [leenelite_smtp_cmd, leenelite_smtp_expect, ioWrite, mark, startTlsWrite]

@[simp] theorem session_snd_closes (env : SendEnv) (st : IOSt) :
    (smtp_phase_session env st).2.closes = st.closes + 1 := by
  unfold smtp_phase_session
  dsimp only
  split
  · simp [leenelite_smtp_expect, ioClose]
  · split
    · split
      · simp [leenelite_smtp_cmd, leenelite_smtp_expect, ioWrite, ioClose, mark]
      · by_cases henc : env.encryption = ascii "tls" <;>
          simp [henc, leenelite_smtp_cmd, leenelite_smtp_expect, ioWrite, mark]
    · by_cases henc : env.encryption = ascii "tls" <;>
        simp [henc, leenelite_smtp_cmd, leenelite_smtp_expect, ioWrite, mark]

@[simp] theorem session_snd_opens (env : SendEnv) (st : IOSt) :
    (smtp_phase_session env st).2.opens = st.opens := by
  unfold smtp_phase_session
  dsimp only
  split
  · simp [leenelite_smtp_expect, ioClose]
  · split
    · split
      · simp [leenelite_smtp_cmd, leenelite_smtp_expect, ioWrite, ioClose, mark]
      · by_cases henc : env.encryption = ascii "tls" <;>
          simp [henc, leenelite_smtp_cmd, leenelite_smtp_expect, ioWrite, mark]
    · by_cases henc : env.encryption = ascii "tls" <;>
        simp [henc, leenelite_smtp_cmd, leenelite_smtp_expect, ioWrite, mark]

theorem session_err (env : SendEnv) (st : IOSt) :
    ((smtp_phase_session env st).1.errorCode = [] ↔ (smtp_phase_session env st).1.ok = true) := by
  unfold smtp_phase_session
  dsimp only
  split
  · dsimp only
    decide
  · split
    · split
      · dsimp only
        decide
      · by_cases henc : env.encryption = ascii "tls" <;> simp only [henc, if_true, if_false]
        · exact tls_err env _
        · exact mail_err env _
    · by_cases henc : env.encryption = ascii "tls" <;> simp only [henc, if_true, if_false]
      · exact tls_err env _
      · exact mail_err env _

theorem session_sendBody (env : SendEnv) (st : IOSt)
    (h : ProtoStep.sendBodyOk ∈ (smtp_phase_session env st).2.steps) :
    ProtoStep.sendBodyOk ∈ st.steps ∨ (smtp_phase_session env st).1 = ⟨true, [], []⟩ := by
  revert h
  unfold smtp_phase_session
  dsimp only
  split
  · intro h
    exact Or.inl (by simpa [leenelite_smtp_expect, ioClose] using h)
  · split
    · split
      · intro h
        exact Or.inl (by
          simpa [leenelite_smtp_cmd, leenelite_smtp_expect, ioWrite, ioClose, mark] using h)
      · by_cases henc : env.encryption = ascii "tls" <;> simp only [henc, if_true, if_false] <;>
          intro h
        · rcases tls_sendBody env _ h with h2 | h2
          · exact Or.inl (by
              simpa [leenelite_smtp_cmd, leenelite_smtp_expect, ioWrite, mark] using h2)
          · exact Or.inr h2
        · rcases mail_sendBody env _ h with h2 | h2
          · exact Or.inl (by
              simpa [leenelite_smtp_cmd, leenelite_smtp_expect, ioWrite, mark] using h2)
          · exact Or.inr h2
    · by_cases henc : env.encryption = ascii "tls" <;> simp only [henc, if_true, if_false] <;>
        intro h
      · rcases tls_sendBody env _ h with h2 | h2
        · exact Or.inl (by
            simpa [leenelite_smtp_cmd, leenelite_smtp_expect, ioWrite, mark] using h2)
        · exact Or.inr h2
      · rcases mail_sendBody env _ h with h2 | h2
        · exact Or.inl (by
            simpa [leenelite_smtp_cmd, leenelite_smtp_expect, ioWrite, mark] using h2)
        · exact Or.inr h2

theorem session_crypto_no_tls (env : SendEnv) (st : IOSt)
    (henc : env.encryption ≠ ascii "tls") :
    (smtp_phase_session env st).2.cryptoCalls = st.cryptoCalls := by
  unfold smtp_phase_session
  dsimp only
  split
  · simp [leenelite_smtp_expect, ioClose]
  · split
    · split
      · simp [leenelite_smtp_cmd, leenelite_smtp_expect, ioWrite, ioClose, mark]
      · simp [henc, leenelite_smtp_cmd, leenelite_smtp_expect, ioWrite, mark]
    · simp [henc, leenelite_smtp_cmd, leenelite_smtp_expect, ioWrite, mark]

theorem session_steps_no_tls (env : SendEnv) (st : IOSt) (p : ProtoStep)
    (henc : env.encryption ≠ ascii "tls")
    (h1 : p ≠ ProtoStep.sendBodyOk) (h2 : p ≠ ProtoStep.quitCmd)
    (h3 : p ≠ ProtoStep.mailFromOk) (h4 : p ≠ ProtoStep.rcptToOk)
    (h5 : p ≠ ProtoStep.dataOk) (h6 : p ≠ ProtoStep.greetingOk)
    (h7 : p ≠ ProtoStep.ehloOk) (h8 : p ≠ ProtoStep.heloOk) :
    (p ∈ (smtp_phase_session env st).2.steps ↔ p ∈ st.steps) := by
  unfold smtp_phase_session
  dsimp only
  split
  · simp [leenelite_smtp_expect, ioClose]
  · split
    · split
      · simp [leenelite_smtp_cmd, leenelite_smtp_expect, ioWrite, ioClose, mark, h6]
      · rw [mail_steps_pres env _ p h1 h2 h3 h4 h5]
        simp [leenelite_smtp_cmd, leenelite_smtp_expect, ioWrite, mark, h6, h8]
    · rw [mail_steps_pres env _ p h1 h2 h3 h4 h5]
      simp [leenelite_smtp_cmd, leenelite_smtp_expect, ioWrite, mark, h6, h7]

theorem session_writes_no_tls (env : SendEnv) (st : IOSt)
    (henc : env.encryption ≠ ascii "tls") :
    (startTlsWrite ∈ (smtp_phase_session env st).2.writes ↔ startTlsWrite ∈ st.writes) := by
  unfold smtp_phase_session
  dsimp only
  split
  · simp [leenelite_smtp_expect, ioClose]
  · split
    · split
      · simp [leenelite_smtp_cmd, leenelite_smtp_expect, ioWrite, ioClose, mark,
          startTls_ne_ehlo env.helo, startTls_ne_helo env.helo]
      · rw [mail_writes_pres env _]
        simp [leenelite_smtp_cmd, leenelite_smtp_expect, ioWrite, mark,
          startTls_ne_ehlo env.helo, startTls_ne_helo env.helo]
    · rw [mail_writes_pres env _]
      simp [leenelite_smtp_cmd, leenelite_smtp_expect, ioWrite, mark,
        startTls_ne_ehlo env.helo]

theorem session_tls_pos (env : SendEnv) (st : IOSt)
    (henc : env.encryption = ascii "tls")
    (hok : (smtp_phase_session env st).1.ok = true) :
    ProtoStep.startTlsCmd ∈ (smtp_phase_session env st).2.steps ∧
    ProtoStep.tlsHandshakeOk ∈ (smtp_phase_session env st).2.steps ∧
    ProtoStep.ehloAfterTls ∈ (smtp_phase_session env st).2.steps ∧
    startTlsWrite ∈ (smtp_phase_session env st).2.writes := by
  revert hok
  unfold smtp_phase_session
  dsimp only
  split
  · intro hok
    dsimp only at hok
    exact absurd hok (by decide)
  · split
    · split
      · intro hok
        dsimp only at hok
        exact absurd hok (by decide)
      · exact fun hok => tls_pos env _ hok
    · exact fun hok => tls_pos env _ hok

/-! ### Base64 -/

theorem b64val_b64chr : ∀ n < 64, b64val (b64chr n) = n := by decide

theorem b64chr_ne_pad : ∀ n < 64, b64chr n ≠ 61 := by decide

theorem base64_roundtrip (l : Str) (h : ∀ b ∈ l, b < 256) :
    base64_decode_rfc (base64_encode l) = l := by
  revert h
  induction l using base64_encode.induct with
  | case1 => intro _; rfl
  | case2 a =>
    intro h
    have ha : a < 256 := h a (by simp)
    have h1 : a / 4 < 64 := by omega
    have h2 : a % 4 * 16 < 64 := by omega
    simp only [base64_encode, base64_decode_rfc, if_pos rfl, if_true,
      b64val_b64chr _ h1, b64val_b64chr _ h2]
    simp only [List.cons.injEq, and_true]
    omega
  | case3 a b =>
    intro h
    have ha : a < 256 := h a (by simp)
    have hb : b < 256 := h b (by simp)
    have h1 : a / 4 < 64 := by omega
    have h2 : a % 4 * 16 + b / 16 < 64 := by omega
    have h3 : b % 16 * 4 < 64 := by omega
    simp only [base64_encode, base64_decode_rfc, if_pos rfl, if_true,
      if_neg (b64chr_ne_pad _ h3), b64val_b64chr _ h1, b64val_b64chr _ h2,
      b64val_b64chr _ h3]
    simp only [List.cons.injEq, and_true]
    constructor
    · omega
    · omega
  | case4 a b c rest ih =>
    intro h
    have ha : a < 256 := h a (by simp)
    have hb : b < 256 := h b (by simp)
    have hc : c < 256 := h c (by simp)
    have h1 : a / 4 < 64 := by omega
    have h2 : a % 4 * 16 + b / 16 < 64 := by omega
    have h3 : b % 16 * 4 + c / 64 < 64 := by omega
    have h4 : c % 64 < 64 := by omega
    have hrest := ih (fun x hx => h x (by simp [hx]))
    simp only [base64_encode, base64_decode_rfc, if_neg (b64chr_ne_pad _ h4),
      b64val_b64chr _ h1, b64val_b64chr _ h2, b64val_b64chr _ h3, b64val_b64chr _ h4,
      hrest]
    simp only [List.cons.injEq]
    refine ⟨by omega, by omega, by omega, trivial⟩

/-! ### The claims -/

/-- Claim C1 (code bug in the source): the body transformation is supposed
to dot-stuff every line that begins with a dot, but the regex
`/\r\n\./` only matches a dot *preceded by a CRLF inside the body*, so a
dot beginning the FIRST body line is never stuffed.  A body consisting of
the single line "." is transmitted as "." — the end-of-data marker — and
not as "..", while a dot on a later line is stuffed correctly. -/
theorem claim_C1_first_line_dot_unstuffed :
    leenelite_body_transform (ascii ".") = ascii "." ∧
    leenelite_body_transform (ascii ".\n") = ascii ".\r\n" ∧
    leenelite_body_transform (ascii "a\n.") = ascii "a\r\n.." := by decide

/-- Claim C2: a subject containing any byte outside printable ASCII
0x20–0x7E is returned as the RFC 2047 encoded word
`=?UTF-8?B?` ++ base64(bytes) ++ `?=`, and base64-decoding the payload
recovers exactly the original bytes; a pure printable-ASCII subject is
returned unmodified. -/
theorem claim_C2_header_encoding (subject : Str) (hb : ∀ b ∈ subject, b < 256) :
    (hasNonAscii subject = true →
      leenelite_encode_header_utf8 subject
          = ascii "=?UTF-8?B?" ++ base64_encode subject ++ ascii "?=" ∧
      base64_decode_rfc (base64_encode subject) = subject) ∧
    (hasNonAscii subject = false → leenelite_encode_header_utf8 subject = subject) := by
  constructor
  · intro hna
    exact ⟨by simp [leenelite_encode_header_utf8, hna], base64_roundtrip subject hb⟩
  · intro hna
    simp [leenelite_encode_header_utf8, hna]

/-- Witness for C2 at the UTF-8 bytes of "é" (0xC3 0xA9). -/
theorem claim_C2_header_encoding_witness :
    leenelite_encode_header_utf8 [195, 169]
        = ascii "=?UTF-8?B?" ++ base64_encode [195, 169] ++ ascii "?=" ∧
    base64_decode_rfc (base64_encode [195, 169]) = [195, 169] :=
  (claim_C2_header_encoding [195, 169] (by decide)).1 (by decide)

/-- Claim C3 counterexample: the reader's guard is PCRE `\s`, not a space,
so the line "250\ta" (tab after the code) is treated as terminal: the read
stops there, while the claim says such a line must be accumulated as a
continuation and reading must continue into the next line. -/
theorem claim_C3_counterexample :
    matchesFinal (ascii "250\ta\r\n") = true ∧
    specFinalLine (ascii "250\ta\r\n") = false ∧
    leenelite_smtp_read [ascii "250\ta\r\n", ascii "250 b\r\n"] =
      (ascii "250\ta\r\n", [ascii "250 b\r\n"]) ∧
    ascii "250\ta\r\n" ≠ ascii "250\ta\r\n" ++ ascii "250 b\r\n" := by decide

/-- Claim C3 amended: `leenelite_smtp_read` accumulates chunks and stops
exactly at the first chunk whose first three bytes are ASCII digits and
whose fourth byte is PCRE whitespace (space, tab, LF, VT, FF or CR) — not
only a space; a hyphen after the status code never terminates, a space
always does. -/
theorem claim_C3_amended :
    (∀ chunks : List Str,
      leenelite_smtp_read chunks =
        ((chunks.take (chunks.findIdx matchesFinal + 1)).flatten,
          chunks.drop (chunks.findIdx matchesFinal + 1))) ∧
    (∀ b0 b1 b2 b3 : Nat, ∀ rest : Str,
      matchesFinal (b0 :: b1 :: b2 :: b3 :: rest)
        = (isDigitByte b0 && isDigitByte b1 && isDigitByte b2 && isSpaceByte b3)) ∧
    (∀ rest : Str, matchesFinal (50 :: 53 :: 48 :: 45 :: rest) = false) ∧
    (∀ rest : Str, matchesFinal (50 :: 53 :: 48 :: 32 :: rest) = true) := by
  refine ⟨?_, fun b0 b1 b2 b3 rest => rfl, fun rest => rfl, fun rest => rfl⟩
  intro chunks
  induction chunks with
  | nil => rfl
  | cons c cs ih =>
    by_cases hc : matchesFinal c
    · simp [leenelite_smtp_read, hc, List.findIdx_cons]
    · simp [leenelite_smtp_read, hc, List.findIdx_cons, ih]

/-- Claim C4: across every input and environment, the socket is opened at
most once, and it is closed exactly as many times as it was opened — in
particular every run that connects closes exactly once, on every exit
path, and no run closes a socket it never opened. -/
theorem claim_C4_connection_lifecycle (cfg : SmtpCfg)
    (fromEmail fromName toEmail subject body : Str)
    (extraHeaders : List (HKey × Str)) (w : World) :
    (leenelite_send_smtp cfg fromEmail fromName toEmail subject body extraHeaders w).2.opens ≤ 1 ∧
    (leenelite_send_smtp cfg fromEmail fromName toEmail subject body extraHeaders w).2.closes =
      (leenelite_send_smtp cfg fromEmail fromName toEmail subject body extraHeaders w).2.opens := by
  unfold leenelite_send_smtp
  dsimp only
  split
  · simp
  · split
    · simp
    · simp

/-- Claim C5: every invocation returns exactly one result triple, and its
error code is the empty string exactly when the success flag is true. -/
theorem claim_C5_error_code_iff_failure (cfg : SmtpCfg)
    (fromEmail fromName toEmail subject body : Str)
    (extraHeaders : List (HKey × Str)) (w : World) :
    ((leenelite_send_smtp cfg fromEmail fromName toEmail subject body extraHeaders w).1.errorCode = [] ↔
      (leenelite_send_smtp cfg fromEmail fromName toEmail subject body extraHeaders w).1.ok = true) := by
  unfold leenelite_send_smtp
  dsimp only
  split
  · dsimp only
    decide
  · split
    · dsimp only
      decide
    · exact session_err _ _

/-- Claim C7: a missing or empty host yields
`Result{success:false, errorCode:"smtp_no_host"}` with no socket opened,
nothing written, and no connect attempted. -/
theorem claim_C7_no_host (cfg : SmtpCfg)
    (fromEmail fromName toEmail subject body : Str)
    (extraHeaders : List (HKey × Str)) (w : World)
    (h : cfg.host = none ∨ cfg.host = some []) :
    (leenelite_send_smtp cfg fromEmail fromName toEmail subject body extraHeaders w).1 =
      ⟨false, ascii "smtp_no_host", ascii "SMTP host missing"⟩ ∧
    (leenelite_send_smtp cfg fromEmail fromName toEmail subject body extraHeaders w).2.opens = 0 ∧
    (leenelite_send_smtp cfg fromEmail fromName toEmail subject body extraHeaders w).2.writes = [] ∧
    (leenelite_send_smtp cfg fromEmail fromName toEmail subject body extraHeaders w).2.remote = none := by
  have hh : resolveHost cfg = [] := by
    rcases h with h | h <;> simp [resolveHost, h]
  unfold leenelite_send_smtp
  dsimp only
  rw [if_pos hh]
  exact ⟨rfl, rfl, rfl, rfl⟩

/-- Witness for C7: configuration with no host key at all. -/
theorem claim_C7_no_host_witness :
    (leenelite_send_smtp ⟨none, none, none, none, none⟩ [] [] [] [] [] []
        ⟨true, [], true, [], [], []⟩).1 =
      ⟨false, ascii "smtp_no_host", ascii "SMTP host missing"⟩ ∧
    (leenelite_send_smtp ⟨none, none, none, none, none⟩ [] [] [] [] [] []
        ⟨true, [], true, [], [], []⟩).2.opens = 0 ∧
    (leenelite_send_smtp ⟨none, none, none, none, none⟩ [] [] [] [] [] []
        ⟨true, [], true, [], [], []⟩).2.writes = [] ∧
    (leenelite_send_smtp ⟨none, none, none, none, none⟩ [] [] [] [] [] []
        ⟨true, [], true, [], [], []⟩).2.remote = none :=
  claim_C7_no_host _ _ _ _ _ _ _ _ (Or.inl rfl)

/-- Claim C9: whenever the message body is accepted (reply 250 after the
DATA payload — the point at which `sendBodyOk` is recorded), the call
returns `{success:true, errorCode:""}`, whatever the server replies to
QUIT, including nothing at all. -/
theorem claim_C9_quit_best_effort (cfg : SmtpCfg)
    (fromEmail fromName toEmail subject body : Str)
    (extraHeaders : List (HKey × Str)) (w : World)
    (h : ProtoStep.sendBodyOk ∈
      (leenelite_send_smtp cfg fromEmail fromName toEmail subject body extraHeaders w).2.steps) :
    (leenelite_send_smtp cfg fromEmail fromName toEmail subject body extraHeaders w).1 =
      ⟨true, [], []⟩ := by
  revert h
  unfold leenelite_send_smtp
  dsimp only
  split
  · intro h
    simp at h
  · split
    · intro h
      simp at h
    · intro h
      rcases session_sendBody _ _ h with h2 | h2
      · simp at h2
      · exact h2

/-- Witness for C9: a full successful plain (no-TLS) exchange. -/
theorem claim_C9_quit_best_effort_witness :
    (leenelite_send_smtp
        ⟨some (ascii "mail.example"), none, none, none, some (ascii "none")⟩
        (ascii "f@x") (ascii "Fred") (ascii "t@y") (ascii "Subj") (ascii "hello") []
        ⟨true, [], true,
          [ascii "220 hi\r\n", ascii "250 ok\r\n", ascii "250 ok\r\n", ascii "250 ok\r\n",
            ascii "354 go\r\n", ascii "250 ok\r\n", ascii "221 bye\r\n"],
          ascii "D", ascii "ff"⟩).1 = ⟨true, [], []⟩ :=
  claim_C9_quit_best_effort _ _ _ _ _ _ _ _ (by decide)

@[simp] theorem quit_snd_remote (st : IOSt) :
    (smtp_phase_quit st).2.remote = st.remote := by
  simp [smtp_phase_quit, leenelite_smtp_cmd, leenelite_smtp_expect, ioWrite, ioClose, mark]

@[simp] theorem quit_snd_timeoutArg (st : IOSt) :
    (smtp_phase_quit st).2.timeoutArg = st.timeoutArg := by
  simp [smtp_phase_quit, leenelite_smtp_cmd, leenelite_smtp_expect, ioWrite, ioClose, mark]

@[simp] theorem msg_snd_remote (env : SendEnv) (st : IOSt) :
    (smtp_phase_msg env st).2.remote = st.remote := by
  unfold smtp_phase_msg
  dsimp only
  split
  · simp [leenelite_smtp_expect, ioWrite, ioClose]
  · simp [leenelite_smtp_expect, ioWrite, mark]

@[simp] theorem msg_snd_timeoutArg (env : SendEnv) (st : IOSt) :
    (smtp_phase_msg env st).2.timeoutArg = st.timeoutArg := by
  unfold smtp_phase_msg
  dsimp only
  split
  · simp [leenelite_smtp_expect, ioWrite, ioClose]
  · simp [leenelite_smtp_expect, ioWrite, mark]

@[simp] theorem mail_snd_remote (env : SendEnv) (st : IOSt) :
    (smtp_phase_mail env st).2.remote = st.remote := by
  unfold smtp_phase_mail
  dsimp only
  split
  · simp [leenelite_smtp_cmd, leenelite_smtp_expect, ioWrite, ioClose]
  · split
    · simp [leenelite_smtp_cmd, leenelite_smtp_expect, ioWrite, ioClose, mark]
    · split
      · simp [leenelite_smtp_cmd, leenelite_smtp_expect, ioWrite, ioClose, mark]
      · simp [leenelite_smtp_cmd, leenelite_smtp_expect, ioWrite, mark]

@[simp] theorem mail_snd_timeoutArg (env : SendEnv) (st : IOSt) :
    (smtp_phase_mail env st).2.timeoutArg = st.timeoutArg := by
  unfold smtp_phase_mail
  dsimp only
  split
  · simp [leenelite_smtp_cmd, leenelite_smtp_expect, ioWrite, ioClose]
  · split
    · simp [leenelite_smtp_cmd, leenelite_smtp_expect, ioWrite, ioClose, mark]
    · split
      · simp [leenelite_smtp_cmd, leenelite_smtp_expect, ioWrite, ioClose, mark]
      · simp [leenelite_smtp_cmd, leenelite_smtp_expect, ioWrite, mark]

@[simp] theorem tls_snd_remote (env : SendEnv) (st : IOSt) :
    (smtp_phase_tls env st).2.remote = st.remote := by
  unfold smtp_phase_tls
  dsimp only
  split
  · simp [leenelite_smtp_cmd, leenelite_smtp_expect, ioWrite, ioClose, mark]
  · split
    · simp [leenelite_smtp_cmd, leenelite_smtp_expect, ioWrite, ioClose, mark]
    · split
      · simp [leenelite_smtp_cmd, leenelite_smtp_expect, ioWrite, ioClose, mark]
      · simp [leenelite_smtp_cmd, leenelite_smtp_expect, ioWrite, mark]

@[simp] theorem tls_snd_timeoutArg (env : SendEnv) (st : IOSt) :
    (smtp_phase_tls env st).2.timeoutArg = st.timeoutArg := by
  unfold smtp_phase_tls
  dsimp only
  split
  · simp [leenelite_smtp_cmd, leenelite_smtp_expect, ioWrite, ioClose, mark]
  · split
    · simp [leenelite_smtp_cmd, leenelite_smtp_expect, ioWrite, ioClose, mark]
    · split
      · simp [leenelite_smtp_cmd, leenelite_smtp_expect, ioWrite, ioClose, mark]
      · simp [leenelite_smtp_cmd, leenelite_smtp_expect, ioWrite, mark]

@[simp] theorem session_snd_remote (env : SendEnv) (st : IOSt) :
    (smtp_phase_session env st).2.remote = st.remote := by
  unfold smtp_phase_session
  dsimp only
  split
  · simp [leenelite_smtp_expect, ioClose]
  · split
    · split
      · simp [leenelite_smtp_cmd, leenelite_smtp_expect, ioWrite, ioClose, mark]
      · by_cases henc : env.encryption = ascii "tls" <;>
          simp [henc, leenelite_smtp_cmd, leenelite_smtp_expect, ioWrite, mark]
    · by_cases henc : env.encryption = ascii "tls" <;>
        simp [henc, leenelite_smtp_cmd, leenelite_smtp_expect, ioWrite, mark]

@[simp] theorem session_snd_timeoutArg (env : SendEnv) (st : IOSt) :
    (smtp_phase_session env st).2.timeoutArg = st.timeoutArg := by
  unfold smtp_phase_session
  dsimp only
  split
  · simp [leenelite_smtp_expect, ioClose]
  · split
    · split
      · simp [leenelite_smtp_cmd, leenelite_smtp_expect, ioWrite, ioClose, mark]
      · by_cases henc : env.encryption = ascii "tls" <;>
          simp [henc, leenelite_smtp_cmd, leenelite_smtp_expect, ioWrite, mark]
    · by_cases henc : env.encryption = ascii "tls" <;>
        simp [henc, leenelite_smtp_cmd, leenelite_smtp_expect, ioWrite, mark]

/-- Claim C6: the STARTTLS exchange — STARTTLS command, TLS handshake,
second EHLO — happens exactly for configurations whose resolved
`encryption` is `tls`.  When it is not `tls`, no STARTTLS command is ever
written, no TLS negotiation is attempted, and none of the TLS protocol
steps is passed; when it is `tls` and the run succeeds, the STARTTLS
command is on the wire and the handshake and the post-handshake EHLO both
happened. -/
theorem claim_C6_starttls_iff_tls (cfg : SmtpCfg)
    (fromEmail fromName toEmail subject body : Str)
    (extraHeaders : List (HKey × Str)) (w : World) :
    (resolveEncryption cfg ≠ ascii "tls" →
      (leenelite_send_smtp cfg fromEmail fromName toEmail subject body extraHeaders w).2.cryptoCalls = 0 ∧
      ProtoStep.startTlsCmd ∉
        (leenelite_send_smtp cfg fromEmail fromName toEmail subject body extraHeaders w).2.steps ∧
      ProtoStep.tlsHandshakeOk ∉
        (leenelite_send_smtp cfg fromEmail fromName toEmail subject body extraHeaders w).2.steps ∧
      ProtoStep.ehloAfterTls ∉
        (leenelite_send_smtp cfg fromEmail fromName toEmail subject body extraHeaders w).2.steps ∧
      startTlsWrite ∉
        (leenelite_send_smtp cfg fromEmail fromName toEmail subject body extraHeaders w).2.writes) ∧
    (resolveEncryption cfg = ascii "tls" →
      (leenelite_send_smtp cfg fromEmail fromName toEmail subject body extraHeaders w).1.ok = true →
      ProtoStep.startTlsCmd ∈
        (leenelite_send_smtp cfg fromEmail fromName toEmail subject body extraHeaders w).2.steps ∧
      ProtoStep.tlsHandshakeOk ∈
        (leenelite_send_smtp cfg fromEmail fromName toEmail subject body extraHeaders w).2.steps ∧
      ProtoStep.ehloAfterTls ∈
        (leenelite_send_smtp cfg fromEmail fromName toEmail subject body extraHeaders w).2.steps ∧
      startTlsWrite ∈
        (leenelite_send_smtp cfg fromEmail fromName toEmail subject body extraHeaders w).2.writes) := by
  unfold leenelite_send_smtp
  dsimp only
  split
  · constructor
    · intro _
      simp
    · intro _ hok
      simp at hok
  · split
    · constructor
      · intro _
        simp
      · intro _ hok
        simp at hok
    · constructor
      · intro henc
        refine ⟨?_, ?_, ?_, ?_, ?_⟩
        · rw [session_crypto_no_tls _ _ henc]
        · rw [session_steps_no_tls _ _ _ henc (by decide) (by decide) (by decide) (by decide)
            (by decide) (by decide) (by decide) (by decide)]
          simp
        · rw [session_steps_no_tls _ _ _ henc (by decide) (by decide) (by decide) (by decide)
            (by decide) (by decide) (by decide) (by decide)]
          simp
        · rw [session_steps_no_tls _ _ _ henc (by decide) (by decide) (by decide) (by decide)
            (by decide) (by decide) (by decide) (by decide)]
          simp
        · rw [session_writes_no_tls _ _ henc]
          simp
      · intro henc hok
        exact session_tls_pos _ _ henc hok

/-- Witness for C6: a full successful STARTTLS exchange. -/
theorem claim_C6_starttls_iff_tls_witness :
    ProtoStep.startTlsCmd ∈
      (leenelite_send_smtp ⟨some (ascii "mail.example"), none, none, none, none⟩
          (ascii "f@x") [] (ascii "t@y") (ascii "S") (ascii "b") []
          ⟨true, [], true,
            [ascii "220 hi\r\n", ascii "250 ok\r\n", ascii "220 go\r\n", ascii "250 ok\r\n",
              ascii "250 ok\r\n", ascii "250 ok\r\n", ascii "354 go\r\n", ascii "250 ok\r\n",
              ascii "221 bye\r\n"],
            ascii "D", ascii "ff"⟩).2.steps ∧
    ProtoStep.tlsHandshakeOk ∈
      (leenelite_send_smtp ⟨some (ascii "mail.example"), none, none, none, none⟩
          (ascii "f@x") [] (ascii "t@y") (ascii "S") (ascii "b") []
          ⟨true, [], true,
            [ascii "220 hi\r\n", ascii "250 ok\r\n", ascii "220 go\r\n", ascii "250 ok\r\n",
              ascii "250 ok\r\n", ascii "250 ok\r\n", ascii "354 go\r\n", ascii "250 ok\r\n",
              ascii "221 bye\r\n"],
            ascii "D", ascii "ff"⟩).2.steps ∧
    ProtoStep.ehloAfterTls ∈
      (leenelite_send_smtp ⟨some (ascii "mail.example"), none, none, none, none⟩
          (ascii "f@x") [] (ascii "t@y") (ascii "S") (ascii "b") []
          ⟨true, [], true,
            [ascii "220 hi\r\n", ascii "250 ok\r\n", ascii "220 go\r\n", ascii "250 ok\r\n",
              ascii "250 ok\r\n", ascii "250 ok\r\n", ascii "354 go\r\n", ascii "250 ok\r\n",
              ascii "221 bye\r\n"],
            ascii "D", ascii "ff"⟩).2.steps ∧
    startTlsWrite ∈
      (leenelite_send_smtp ⟨some (ascii "mail.example"), none, none, none, none⟩
          (ascii "f@x") [] (ascii "t@y") (ascii "S") (ascii "b") []
          ⟨true, [], true,
            [ascii "220 hi\r\n", ascii "250 ok\r\n", ascii "220 go\r\n", ascii "250 ok\r\n",
              ascii "250 ok\r\n", ascii "250 ok\r\n", ascii "354 go\r\n", ascii "250 ok\r\n",
              ascii "221 bye\r\n"],
            ascii "D", ascii "ff"⟩).2.writes :=
  (claim_C6_starttls_iff_tls _ _ _ _ _ _ _ _).2 (by decide) (by decide)

/-- Claim C10: missing configuration keys get the defaults of
smtp_mailer.php lines 69–73 — port 587, timeout 20, helo "localhost",
encryption "tls" (so STARTTLS is attempted when the key is missing) — and
the encryption value is compared after lowercasing.  The resolved port and
timeout are what the connect call actually receives. -/
theorem claim_C10_config_defaults (cfg : SmtpCfg)
    (fromEmail fromName toEmail subject body : Str)
    (extraHeaders : List (HKey × Str)) (w : World) :
    (cfg.port = none → resolvePort cfg = 587) ∧
    (cfg.timeout = none → resolveTimeout cfg = 20) ∧
    (cfg.helo = none → resolveHelo cfg = ascii "localhost") ∧
    (cfg.encryption = none → resolveEncryption cfg = ascii "tls") ∧
    (∀ e, resolveEncryption { cfg with encryption := some e } = phpToLower e) ∧
    (∀ r ∈ (leenelite_send_smtp cfg fromEmail fromName toEmail subject body extraHeaders w).2.remote,
      r = ascii "tcp://" ++ resolveHost cfg ++ [58] ++ intDec (resolvePort cfg)) ∧
    (∀ t ∈ (leenelite_send_smtp cfg fromEmail fromName toEmail subject body extraHeaders w).2.timeoutArg,
      t = resolveTimeout cfg) ∧
    (cfg.encryption = none →
      (leenelite_send_smtp cfg fromEmail fromName toEmail subject body extraHeaders w).1.ok = true →
      ProtoStep.startTlsCmd ∈
        (leenelite_send_smtp cfg fromEmail fromName toEmail subject body extraHeaders w).2.steps) := by
  refine ⟨fun h => by simp [resolvePort, h], fun h => by simp [resolveTimeout, h],
    fun h => by simp [resolveHelo, h],
    fun h => by unfold resolveEncryption; rw [h]; decide,
    fun e => by simp [resolveEncryption], ?_, ?_, ?_⟩
  · unfold leenelite_send_smtp
    dsimp only
    split
    · simp
    · split
      · simp
      · simp
  · unfold leenelite_send_smtp
    dsimp only
    split
    · simp
    · split
      · simp
      · simp
  · intro henc hok
    have hr : resolveEncryption cfg = ascii "tls" := by
      unfold resolveEncryption
      rw [henc]
      decide
    revert hok
    unfold leenelite_send_smtp
    dsimp only
    split
    · intro hok
      simp at hok
    · split
      · intro hok
        simp at hok
      · intro hok
        exact (session_tls_pos _ _ hr hok).1

/-- Witness for C10: every key except the host missing, full STARTTLS
exchange succeeding. -/
theorem claim_C10_config_defaults_witness :
    resolvePort ⟨some (ascii "mail.example"), none, none, none, none⟩ = 587 ∧
    resolveTimeout ⟨some (ascii "mail.example"), none, none, none, none⟩ = 20 ∧
    resolveHelo ⟨some (ascii "mail.example"), none, none, none, none⟩ = ascii "localhost" ∧
    resolveEncryption ⟨some (ascii "mail.example"), none, none, none, none⟩ = ascii "tls" ∧
    ProtoStep.startTlsCmd ∈
      (leenelite_send_smtp ⟨some (ascii "mail.example"), none, none, none, none⟩
          (ascii "a@x") [] (ascii "b@y") (ascii "S") (ascii "m") []
          ⟨true, [], true,
            [ascii "220 hi\r\n", ascii "250 ok\r\n", ascii "220 go\r\n", ascii "250 ok\r\n",
              ascii "250 ok\r\n", ascii "250 ok\r\n", ascii "354 go\r\n", ascii "250 ok\r\n",
              ascii "221 bye\r\n"],
            ascii "E", ascii "aa"⟩).2.steps := by
  obtain ⟨p1, p2, p3, p4, _, _, _, p8⟩ :=
    claim_C10_config_defaults ⟨some (ascii "mail.example"), none, none, none, none⟩
      (ascii "a@x") [] (ascii "b@y") (ascii "S") (ascii "m") []
      ⟨true, [], true,
        [ascii "220 hi\r\n", ascii "250 ok\r\n", ascii "220 go\r\n", ascii "250 ok\r\n",
          ascii "250 ok\r\n", ascii "250 ok\r\n", ascii "354 go\r\n", ascii "250 ok\r\n",
          ascii "221 bye\r\n"],
        ascii "E", ascii "aa"⟩
  exact ⟨p1 rfl, p2 rfl, p3 rfl, p4 rfl, p8 rfl (by decide)⟩

/-! ### Header construction -/

theorem headerLine_inr (k v : Str) (hk1 : phpTrim k = k) (hk2 : k ≠ [])
    (hv1 : phpTrim v = v) (hv2 : v ≠ []) :
    headerLine (Sum.inr k, v) = some (k ++ [58, 32] ++ v) := by
  simp [headerLine, hk1, hv1, hk2, hv2]

theorem phpTrim_bracket (a : Nat) (mid : Str) (b : Nat)
    (ha : isTrimByte a = false) (hb : isTrimByte b = false) :
    phpTrim (a :: (mid ++ [b])) = a :: (mid ++ [b]) := by
  simp [phpTrim, List.dropWhile_cons, ha, hb, List.reverse_append, List.dropWhile_append]

theorem phpInsert_fresh (arr : List (HKey × Str)) (k : HKey) (v : Str)
    (h : ∀ q ∈ arr, q.1 ≠ k) : phpInsert arr k v = arr ++ [(k, v)] := by
  have hc : arr.any (fun p => p.1 = k) = false := by
    rw [List.any_eq_false]
    intro p hp
    simp [h p hp]
  simp [phpInsert, hc]

theorem phpInsertAll_fresh (extras : List (HKey × Str)) :
    ∀ arr : List (HKey × Str),
      (∀ p ∈ extras, ∀ q ∈ arr, q.1 ≠ p.1) →
      (extras.map Prod.fst).Nodup →
      phpInsertAll arr extras = arr ++ extras := by
  induction extras with
  | nil =>
    intro arr _ _
    simp [phpInsertAll]
  | cons p ps ih =>
    intro arr hfresh hnd
    have h1 : ∀ q ∈ arr, q.1 ≠ p.1 := fun q hq => hfresh p (by simp) q hq
    have hstep : phpInsert arr p.1 p.2 = arr ++ [p] := by
      rw [phpInsert_fresh arr p.1 p.2 h1]
    have hnd2 := hnd
    rw [List.map_cons, List.nodup_cons] at hnd2
    have hrest : phpInsertAll (arr ++ [p]) ps = (arr ++ [p]) ++ ps := by
      apply ih
      · intro r hr q hq
        rcases List.mem_append.1 hq with hq2 | hq2
        · exact hfresh r (List.mem_cons_of_mem _ hr) q hq2
        · have : q = p := by simpa using hq2
          subst this
          intro hcontra
          exact hnd2.1 (hcontra ▸ List.mem_map_of_mem Prod.fst hr)
      · exact hnd2.2
    calc phpInsertAll arr (p :: ps)
        = phpInsertAll (phpInsert arr p.1 p.2) ps := by
          simp [phpInsertAll]
      _ = phpInsertAll (arr ++ [p]) ps := by rw [hstep]
      _ = (arr ++ [p]) ++ ps := hrest
      _ = arr ++ (p :: ps) := by simp

theorem phpTrim_msgId (msgIdHex helo : Str) :
    phpTrim (mkMessageId msgIdHex helo) = mkMessageId msgIdHex helo := by
  have hshape : mkMessageId msgIdHex helo = 60 :: ((msgIdHex ++ 64 :: helo) ++ [62]) := by
    simp [mkMessageId]
  rw [hshape, phpTrim_bracket 60 (msgIdHex ++ 64 :: helo) 62 (by decide) (by decide)]

theorem filterMap_fixed (F T S M D : Str)
    (hF1 : phpTrim F = F) (hF2 : F ≠ [])
    (hT1 : phpTrim T = T) (hT2 : T ≠ [])
    (hS1 : phpTrim S = S) (hS2 : S ≠ [])
    (hM1 : phpTrim M = M) (hM2 : M ≠ [])
    (hD1 : phpTrim D = D) (hD2 : D ≠ []) :
    List.filterMap headerLine (leenelite_fixed_headers F T S M D)
      = [ascii "Date" ++ [58, 32] ++ D,
         ascii "From" ++ [58, 32] ++ F,
         ascii "To" ++ [58, 32] ++ T,
         ascii "Subject" ++ [58, 32] ++ S,
         ascii "Message-ID" ++ [58, 32] ++ M,
         ascii "MIME-Version" ++ [58, 32] ++ ascii "1.0",
         ascii "Content-Type" ++ [58, 32] ++ ascii "text/plain; charset=UTF-8",
         ascii "Content-Transfer-Encoding" ++ [58, 32] ++ ascii "8bit"] := by
  unfold leenelite_fixed_headers
  rw [List.filterMap_cons_some (headerLine_inr _ _ (by decide) (by decide) hD1 hD2),
    List.filterMap_cons_some (headerLine_inr _ _ (by decide) (by decide) hF1 hF2),
    List.filterMap_cons_some (headerLine_inr _ _ (by decide) (by decide) hT1 hT2),
    List.filterMap_cons_some (headerLine_inr _ _ (by decide) (by decide) hS1 hS2),
    List.filterMap_cons_some (headerLine_inr _ _ (by decide) (by decide) hM1 hM2),
    List.filterMap_cons_some (headerLine_inr _ _ (by decide) (by decide) (by decide) (by decide)),
    List.filterMap_cons_some (headerLine_inr _ _ (by decide) (by decide) (by decide) (by decide)),
    List.filterMap_cons_some (headerLine_inr _ _ (by decide) (by decide) (by decide) (by decide)),
    List.filterMap_nil]

theorem filterMap_extras (extras : List (Str × Str))
    (hex : ∀ p ∈ extras, phpTrim p.1 = p.1 ∧ p.1 ≠ [] ∧ phpTrim p.2 = p.2 ∧ p.2 ≠ []) :
    List.filterMap headerLine (extras.map (fun p => (Sum.inr p.1, p.2)))
      = extras.map (fun p => p.1 ++ [58, 32] ++ p.2) := by
  induction extras with
  | nil => rfl
  | cons p ps ih =>
    have hp := hex p (by simp)
    rw [List.map_cons, List.filterMap_cons_some (headerLine_inr _ _ hp.1 hp.2.1 hp.2.2.1 hp.2.2.2),
      List.map_cons, ih (fun r hr => hex r (List.mem_cons_of_mem _ hr))]

/-- Claim C8 counterexample: an extra header whose key collides with a
fixed header (here `Subject`) does not appear after the fixed set — PHP
array assignment overwrites the value at the key's original position — so
the transmitted block differs from the claim's fixed-set-then-extras
layout. -/
theorem claim_C8_counterexample :
    leenelite_build_headers
        (phpInsertAll
          (leenelite_fixed_headers (ascii "f@x") (ascii "t@y") (ascii "S") (ascii "<m@h>")
            (ascii "D"))
          [(Sum.inr (ascii "Subject"), ascii "x")])
      ≠ leenelite_build_headers
          (claimHeadersArray
            (leenelite_fixed_headers (ascii "f@x") (ascii "t@y") (ascii "S") (ascii "<m@h>")
              (ascii "D"))
            [(Sum.inr (ascii "Subject"), ascii "x")]) := by decide

/-- Claim C8 amended: when every caller-supplied extra header has a
trim-stable nonempty name distinct from the eight fixed header names and
from the other extras, and a trim-stable nonempty value — and the fixed
header values are themselves trim-stable and nonempty — the transmitted
block is exactly the eight fixed lines in order `Date`, `From`, `To`,
`Subject`, `Message-ID`, `MIME-Version`, `Content-Type`,
`Content-Transfer-Encoding`, followed by the extras in caller insertion
order.  (An extra whose name collides with a fixed header instead
replaces that header's value in place, per the counterexample.) -/
theorem claim_C8_header_order_amended
    (fromEmail fromName toEmail subject date msgIdHex helo : Str)
    (extras : List (Str × Str))
    (hF1 : phpTrim (mkFromHeader fromName fromEmail) = mkFromHeader fromName fromEmail)
    (hF2 : mkFromHeader fromName fromEmail ≠ [])
    (hT1 : phpTrim toEmail = toEmail) (hT2 : toEmail ≠ [])
    (hS1 : phpTrim (leenelite_encode_header_utf8 subject) = leenelite_encode_header_utf8 subject)
    (hS2 : leenelite_encode_header_utf8 subject ≠ [])
    (hD1 : phpTrim date = date) (hD2 : date ≠ [])
    (hex : ∀ p ∈ extras, phpTrim p.1 = p.1 ∧ p.1 ≠ [] ∧ phpTrim p.2 = p.2 ∧ p.2 ≠ [] ∧
      ∀ n ∈ fixedHeaderNames, p.1 ≠ n)
    (hnd : (extras.map Prod.fst).Nodup) :
    leenelite_build_headers
        (phpInsertAll
          (leenelite_fixed_headers (mkFromHeader fromName fromEmail) toEmail
            (leenelite_encode_header_utf8 subject) (mkMessageId msgIdHex helo) date)
          (extras.map (fun p => (Sum.inr p.1, p.2))))
      = List.intercalate crlf
          ([ascii "Date" ++ [58, 32] ++ date,
            ascii "From" ++ [58, 32] ++ mkFromHeader fromName fromEmail,
            ascii "To" ++ [58, 32] ++ toEmail,
            ascii "Subject" ++ [58, 32] ++ leenelite_encode_header_utf8 subject,
            ascii "Message-ID" ++ [58, 32] ++ mkMessageId msgIdHex helo,
            ascii "MIME-Version" ++ [58, 32] ++ ascii "1.0",
            ascii "Content-Type" ++ [58, 32] ++ ascii "text/plain; charset=UTF-8",
            ascii "Content-Transfer-Encoding" ++ [58, 32] ++ ascii "8bit"]
            ++ extras.map (fun p => p.1 ++ [58, 32] ++ p.2)) := by
  have hM2 : mkMessageId msgIdHex helo ≠ [] := by simp [mkMessageId]
  have hndmap : ((extras.map (fun p => ((Sum.inr p.1 : HKey), p.2))).map Prod.fst).Nodup := by
    rw [List.map_map]
    have : (Prod.fst ∘ fun p : Str × Str => ((Sum.inr p.1 : HKey), p.2))
        = fun p : Str × Str => (Sum.inr p.1 : HKey) := rfl
    rw [this, show (fun p : Str × Str => ((Sum.inr p.1 : HKey)))
        = (Sum.inr ∘ Prod.fst) from rfl, ← List.map_map]
    exact hnd.map (fun a b => Sum.inr.inj)
  have hfresh : ∀ p ∈ extras.map (fun p => ((Sum.inr p.1 : HKey), p.2)),
      ∀ q ∈ leenelite_fixed_headers (mkFromHeader fromName fromEmail) toEmail
        (leenelite_encode_header_utf8 subject) (mkMessageId msgIdHex helo) date,
        q.1 ≠ p.1 := by
    intro p hp q hq
    simp only [List.mem_map] at hp
    obtain ⟨p2, hp2, rfl⟩ := hp
    have hnames := (hex p2 hp2).2.2.2.2
    simp only [leenelite_fixed_headers, List.mem_cons, List.not_mem_nil, or_false] at hq
    rcases hq with rfl | rfl | rfl | rfl | rfl | rfl | rfl | rfl <;>
      · dsimp only
        intro hc
        rw [Sum.inr.injEq] at hc
        exact hnames _ (by decide) hc.symm
  rw [phpInsertAll_fresh _ _ hfresh hndmap]
  unfold leenelite_build_headers
  rw [List.filterMap_append,
    filterMap_fixed _ _ _ _ _ hF1 hF2 hT1 hT2 hS1 hS2 (phpTrim_msgId msgIdHex helo) hM2 hD1 hD2,
    filterMap_extras extras (fun p hp => ⟨(hex p hp).1, (hex p hp).2.1, (hex p hp).2.2.1,
      (hex p hp).2.2.2.1⟩)]

/-- Witness for C8 amended at a `Reply-To` extra header. -/
theorem claim_C8_header_order_amended_witness :
    leenelite_build_headers
        (phpInsertAll
          (leenelite_fixed_headers (mkFromHeader (ascii "Fred") (ascii "f@x")) (ascii "t@y")
            (leenelite_encode_header_utf8 (ascii "S")) (mkMessageId (ascii "m") (ascii "h"))
            (ascii "D"))
          ([(ascii "Reply-To", ascii "r@x")].map (fun p => (Sum.inr p.1, p.2))))
      = List.intercalate crlf
          ([ascii "Date" ++ [58, 32] ++ ascii "D",
            ascii "From" ++ [58, 32] ++ mkFromHeader (ascii "Fred") (ascii "f@x"),
            ascii "To" ++ [58, 32] ++ ascii "t@y",
            ascii "Subject" ++ [58, 32] ++ leenelite_encode_header_utf8 (ascii "S"),
            ascii "Message-ID" ++ [58, 32] ++ mkMessageId (ascii "m") (ascii "h"),
            ascii "MIME-Version" ++ [58, 32] ++ ascii "1.0",
            ascii "Content-Type" ++ [58, 32] ++ ascii "text/plain; charset=UTF-8",
            ascii "Content-Transfer-Encoding" ++ [58, 32] ++ ascii "8bit"]
            ++ [(ascii "Reply-To", ascii "r@x")].map (fun p => p.1 ++ [58, 32] ++ p.2)) :=
  claim_C8_header_order_amended (ascii "f@x") (ascii "Fred") (ascii "t@y") (ascii "S")
    (ascii "D") (ascii "m") (ascii "h") [(ascii "Reply-To", ascii "r@x")]
    (by decide) (by decide) (by decide) (by decide) (by decide) (by decide) (by decide)
    (by decide) (by decide) (by decide)
